import Mathlib

/-!
Shallow embedding of `pymc/func_utils.py` (the `find_optim_prior` calibration
routine) and verification of its specification.

Modelling conventions:
* Python floats are modelled as rationals (ℚ); `exp` and the distribution
  family's log-CDF are opaque external capabilities, passed in as functions.
* A Python dict is an insertion-ordered association list
  `List (String × _)`; `dict.update` overwrites values of existing keys in
  place and appends new keys at the end, exactly as in CPython.
* `scipy.optimize.least_squares` is an opaque solver oracle producing a
  success flag and a solution vector.
* `pm.gradient`/`aesara.function` (automatic differentiation) is an opaque
  provider that either yields a Jacobian function or fails with an
  exception; failure is modelled by `Option.none`.
* Exceptions become `Except`; the observable events of a call (solver
  invocations with the kind of Jacobian argument, tolerance warnings) are
  recorded in an event trace returned next to the result.
-/

namespace PyMC

/-- A parameter assignment: dict from parameter name to numeric value. -/
abbrev ParamMap := List (String × ℚ)

/-- A symbolic scalar expression appearing as a distribution parameter:
either component `i` of the optimization vector (the aesara graph node
`dist_params[i]`) or a closed-over constant (a fixed parameter). -/
inductive PExpr where
  | free (i : Nat)
  | const (q : ℚ)
deriving DecidableEq, Repr

/-- Evaluate a symbolic parameter expression at an optimization vector. -/
def PExpr.evalAt (x : List ℚ) : PExpr → ℚ
  | .free i => x.getD i 0
  | .const q => q

/-- A symbolic parameter dict (name to symbolic expression). -/
abbrev SymMap := List (String × PExpr)

/-- Python `d[k] = v`: overwrite in place when `k` is a key of `d`,
append `(k, v)` otherwise. -/
def dictUpd {β : Type} (d : List (String × β)) (k : String) (v : β) :
    List (String × β) :=
  if d.any (fun p => p.1 = k) then
    d.map (fun p => if p.1 = k then (k, v) else p)
  else d ++ [(k, v)]

/-- Python `d.update(e)`: assign every entry of `e` into `d`, in order. -/
def dictUpdate {β : Type} (d e : List (String × β)) : List (String × β) :=
  e.foldl (fun acc p => dictUpd acc p.1 p.2) d

/-- An exception raised while building the log-CDF graph
(`pm.logcdf(dist_, value)` in the source): either an `AttributeError`
(the distribution has no logcdf method) or any other Python exception. -/
inductive LogcdfErr where
  | attributeError (msg : String)
  | other (msg : String)
deriving DecidableEq, Repr

/-- A distribution family (`pm_dist` in the source): its printable name,
the declared dimensionality of each parameter (`rv_op.ndims_params`), and
its log-CDF capability -- either a total evaluator from a concrete
parameter assignment and a query point to the log-CDF value, or the
exception raised when the capability is queried. -/
structure DistFamily where
  name : String
  ndims_params : List Nat
  logcdf : Except LogcdfErr (ParamMap → ℚ → ℚ)

/-- Which Jacobian argument the solver receives. -/
inductive JacKind where
  | analytic
  | twoPoint
deriving DecidableEq, Repr

/-- The `jac` argument of `scipy.optimize.least_squares`: an analytic
Jacobian callable, or the string sentinel "2-point" requesting numerical
finite differencing. -/
inductive JacArg where
  | analytic (g : List ℚ → List ℚ)
  | twoPoint

/-- Forget the callable, keeping only which kind of argument it is. -/
def JacArg.kind : JacArg → JacKind
  | .analytic _ => .analytic
  | .twoPoint => .twoPoint

/-- The result object of `scipy.optimize.least_squares`. -/
structure SolverResult where
  success : Bool
  x : List ℚ

/-- The solver oracle: residual function, initial vector, Jacobian
argument. -/
abbrev Solver := (List ℚ → ℚ) → List ℚ → JacArg → SolverResult

/-- The exceptions `find_optim_prior` can surface. -/
inductive Err where
  | assertionError
  | notImplementedError (msg : String)
  | attributeError (msg : String)
  | valueError (msg : String)
  | otherError (msg : String)
deriving DecidableEq, Repr

/-- Observable events of one call: each solver invocation (tagged with the
kind of Jacobian argument passed) and each tolerance warning emitted. -/
inductive Event where
  | solverCall (jk : JacKind)
  | warnTolerance
deriving DecidableEq, Repr

/-- Message of the non-scalar-parameter `NotImplementedError`
(contractions expanded; the text is otherwise that of the source). -/
def notScalarMsg : String :=
  "`pm.find_optim_prior` does not work with non-scalar parameters yet.\nFeel free to open a pull request on PyMC repo if you really need this feature."

/-- Message of the missing-logcdf `AttributeError`, naming the family
(contractions expanded; the text is otherwise that of the source). -/
def noLogcdfMsg (name : String) : String :=
  "You cannot use `find_optim_prior` with " ++ name ++ " -- it does not have a logcdf method yet.\nOpen an issue or, even better, a pull request on PyMC repo if you really need it."

/-- `pm.floatX`: a cast to the configured float dtype; on values it is the
identity (we do not model float rounding). -/
def floatX (q : ℚ) : ℚ := q

/-- The symbolic parameter dict built by the source:
`params_to_optim = {name: dist_params[i] for name, i in
zip(init_guess.keys(), range(len(init_guess)))}` followed by
`params_to_optim.update(fixed_params)` when fixed parameters are given. -/
def build_params_to_optim (init_guess : ParamMap)
    (fixed_params : Option ParamMap) : SymMap :=
  let base := init_guess.enum.map (fun p => (p.2.1, PExpr.free p.1))
  match fixed_params with
  | some fp => dictUpdate base (fp.map (fun p => (p.1, PExpr.const p.2)))
  | none => base

/-- Evaluate a symbolic parameter dict at an optimization vector. -/
def evalSymMap (m : SymMap) (x : List ℚ) : ParamMap :=
  m.map (fun p => (p.1, p.2.evalAt x))

/-- The compiled residual `cdf_error_fn`:
`(exp(logcdf_upper) - exp(logcdf_lower)) - mass`, where both log-CDF graph
nodes were built over the distribution constructed from the symbolic
parameter dict, at the `floatX`-cast bounds. -/
def cdf_error_fn (pexp : ℚ → ℚ) (logcdf : ParamMap → ℚ → ℚ) (m : SymMap)
    (lower upper mass : ℚ) (x : List ℚ) : ℚ :=
  (pexp (logcdf (evalSymMap m x) (floatX upper))
    - pexp (logcdf (evalSymMap m x) (floatX lower))) - mass

/-- The `jac` argument passed to the solver: an analytic Jacobian when
`pm.gradient` succeeded, the "2-point" sentinel when it raised. -/
def jacArg (grad : Option (List ℚ → List ℚ)) : JacArg :=
  match grad with
  | some g => .analytic g
  | none => .twoPoint

/-- The merged result dict: `opt_params = {name: value for name, value in
zip(init_guess.keys(), opt.x)}` then `opt_params.update(fixed_params)`
when fixed parameters are given. -/
def mergedParams (init_guess : ParamMap) (fixed_params : Option ParamMap)
    (xs : List ℚ) : ParamMap :=
  let opt_params := (init_guess.map Prod.fst).zip xs
  match fixed_params with
  | some fp => dictUpdate opt_params fp
  | none => opt_params

/-- The realized mass at the final parameter set:
`exp(logcdf(opt_dist, upper)) - exp(logcdf(opt_dist, lower))`, evaluated
with the merged parameters (no `floatX` cast here, as in the source). -/
def mass_in_interval (pexp : ℚ → ℚ) (logcdf : ParamMap → ℚ → ℚ)
    (opt_params : ParamMap) (lower upper : ℚ) : ℚ :=
  pexp (logcdf opt_params upper) - pexp (logcdf opt_params lower)

/-- Shallow embedding of `pymc.func_utils.find_optim_prior`.

Arguments mirror the Python signature; in addition `pexp` is the
exponential capability (`pm.math.exp`), `solver` the
`scipy.optimize.least_squares` oracle, and `grad` the outcome of the
automatic-differentiation attempt (`none` models any exception raised
while building the gradient).  Returns the Python result (an exception or
the optimized parameter dict) together with the trace of observable
events. -/
def find_optim_prior (pexp : ℚ → ℚ) (solver : Solver)
    (grad : Option (List ℚ → List ℚ)) (pm_dist : DistFamily)
    (lower upper : ℚ) (init_guess : ParamMap) (mass : ℚ)
    (fixed_params : Option ParamMap) :
    Except Err ParamMap × List Event :=
  -- assert 0.01 < mass < 0.99
  if ¬ ((1 : ℚ)/100 < mass ∧ mass < 99/100) then
    (.error .assertionError, [])
  -- exit when any parameter is not scalar
  else if pm_dist.ndims_params.any (fun n => n ≠ 0) then
    (.error (.notImplementedError notScalarMsg), [])
  else
    let ptm := build_params_to_optim init_guess fixed_params
    -- try: logcdf_lower / logcdf_upper; except AttributeError: re-raise
    match pm_dist.logcdf with
    | .error (.attributeError _) =>
        (.error (.attributeError (noLogcdfMsg pm_dist.name)), [])
    | .error (.other m) => (.error (.otherError m), [])
    | .ok logcdf =>
      let fn := cdf_error_fn pexp logcdf ptm lower upper mass
      let jac := jacArg grad
      let opt := solver fn (init_guess.map Prod.snd) jac
      if ¬ opt.success then
        (.error (.valueError "Optimization of parameters failed."),
          [.solverCall jac.kind])
      else
        let opt_params := mergedParams init_guess fixed_params opt.x
        let mii := mass_in_interval pexp logcdf opt_params lower upper
        if (1 : ℚ)/100 ≤ |mii - mass| then
          (.ok opt_params, [.solverCall jac.kind, .warnTolerance])
        else
          (.ok opt_params, [.solverCall jac.kind])

/-- The free-parameter assignment induced by an optimization vector: the
keys of `init_guess`, in order, take the components of `x`. -/
def freeAssign (init_guess : ParamMap) (x : List ℚ) : ParamMap :=
  init_guess.enum.map (fun p => (p.2.1, x.getD p.1 0))

/-- The parameter assignment named by the spec's residual formula
"logCDF(upper; free=x, fixed)": the free parameters (the keys of
`init_guess`, ordered as given) take the components of `x`, and the fixed
parameters are the caller's constants.  This definition follows the
spec's words; the theorem for the residual claim compares the residual
built from the source against this assignment. -/
def specResidualParams (init_guess : ParamMap) (fixed_params : Option ParamMap)
    (x : List ℚ) : ParamMap :=
  freeAssign init_guess x ++ fixed_params.getD []

/-! ### A mutable-dict model of the same routine

`find_optim_prior_st` re-runs the source over an explicit store of
Python dict objects, so that the frame claim (the caller's `init_guess`
and `fixed_params` dicts are never mutated) can be stated: the dict
comprehensions allocate fresh references, and the two `.update` calls
write through a reference.  Dicts of numbers are stored as constant-valued
symbolic dicts. -/

/-- A reference to a Python dict object. -/
abbrev Ref := Nat

/-- The heap of dict objects. -/
abbrev Store := List (Ref × SymMap)

/-- The largest reference in use. -/
def maxRef (s : Store) : Nat := (s.map Prod.fst).foldr max 0

/-- A reference not in use. -/
def freshRef (s : Store) : Ref := maxRef s + 1

/-- Dereference (an unallocated reference dereferences to the empty dict;
the theorems only ever dereference allocated ones). -/
def storeGet (s : Store) (r : Ref) : SymMap :=
  ((s.find? (fun p => p.1 = r)).map Prod.snd).getD []

/-- Overwrite the object behind a reference (a `d.update(...)` call). -/
def storeSet (s : Store) (r : Ref) (d : SymMap) : Store :=
  s.map (fun p => if p.1 = r then (r, d) else p)

/-- Allocate a fresh dict object (a dict comprehension). -/
def allocAt (s : Store) (d : SymMap) : Store :=
  s ++ [(freshRef s, d)]

/-- The in-place `d.update(fixed_params)` performed when `fixed_params`
is not None: overwrite the dict behind `tgt` with its update by the dict
behind `src`; do nothing when there are no fixed parameters. -/
def phaseUpdate (s : Store) (tgt : Ref) (src : Option Ref) : Store :=
  match src with
  | some fr => storeSet s tgt (dictUpdate (storeGet s tgt) (storeGet s fr))
  | none => s

/-- View a numeric dict as a constant-valued symbolic dict. -/
def constMap (d : ParamMap) : SymMap :=
  d.map (fun p => (p.1, PExpr.const p.2))

/-- Read the numbers back out of a constant-valued symbolic dict. -/
def constVals (m : SymMap) : ParamMap :=
  m.map (fun p => (p.1, p.2.evalAt []))

/-- `find_optim_prior` re-run over an explicit store: `initRef` and
`fixedRef` are the references of the caller's `init_guess` and
`fixed_params` dicts.  Every dict the source creates is allocated in the
store and every `.update` writes through the reference, mirroring the
source line by line; the final store is returned next to the result. -/
def find_optim_prior_st (pexp : ℚ → ℚ) (solver : Solver)
    (grad : Option (List ℚ → List ℚ)) (pm_dist : DistFamily)
    (lower upper mass : ℚ) (s0 : Store) (initRef : Ref)
    (fixedRef : Option Ref) :
    Except Err Ref × Store × List Event :=
  if ¬ ((1 : ℚ)/100 < mass ∧ mass < 99/100) then
    (.error .assertionError, s0, [])
  else if pm_dist.ndims_params.any (fun n => n ≠ 0) then
    (.error (.notImplementedError notScalarMsg), s0, [])
  else
    let init_guess := constVals (storeGet s0 initRef)
    -- params_to_optim = {name: dist_params[i] for ...}  (a fresh dict)
    let s1 := allocAt s0 (init_guess.enum.map (fun p => (p.2.1, PExpr.free p.1)))
    let ptmRef := freshRef s0
    -- params_to_optim.update(fixed_params)
    let s2 := phaseUpdate s1 ptmRef fixedRef
    match pm_dist.logcdf with
    | .error (.attributeError _) =>
        (.error (.attributeError (noLogcdfMsg pm_dist.name)), s2, [])
    | .error (.other m) => (.error (.otherError m), s2, [])
    | .ok logcdf =>
      let fn := cdf_error_fn pexp logcdf (storeGet s2 ptmRef) lower upper mass
      let jac := jacArg grad
      let opt := solver fn (init_guess.map Prod.snd) jac
      if ¬ opt.success then
        (.error (.valueError "Optimization of parameters failed."), s2,
          [.solverCall jac.kind])
      else
        -- opt_params = {name: value for ...}  (a fresh dict)
        let s3 := allocAt s2 (constMap ((init_guess.map Prod.fst).zip opt.x))
        let optRef := freshRef s2
        -- opt_params.update(fixed_params)
        let s4 := phaseUpdate s3 optRef fixedRef
        let opt_params := constVals (storeGet s4 optRef)
        let mii := mass_in_interval pexp logcdf opt_params lower upper
        if (1 : ℚ)/100 ≤ |mii - mass| then
          (.ok optRef, s4, [.solverCall jac.kind, .warnTolerance])
        else
          (.ok optRef, s4, [.solverCall jac.kind])

/-! ### Concrete instances used by the witnesses -/

/-- A family whose log-CDF capability raises a non-AttributeError
exception when queried. -/
def famBoom : DistFamily := ⟨"DistBoom", [0], .error (.other "boom")⟩

/-- A family whose log-CDF capability raises AttributeError (no logcdf
method). -/
def famNoCdf : DistFamily :=
  ⟨"Flat", [0], .error (.attributeError "no attribute logcdf")⟩

/-- An arbitrary concrete total log-CDF evaluator for witnesses. -/
def L0 : ParamMap → ℚ → ℚ :=
  fun ps v => v + (ps.map Prod.snd).foldr (fun a b => a + b) 0

/-- A two-scalar-parameter family with a total log-CDF evaluator. -/
def famOk : DistFamily := ⟨"Normal", [0, 0], .ok L0⟩

/-- A family declaring a vector-shaped parameter. -/
def famVec : DistFamily := ⟨"MvNormal", [1, 2], .ok (fun _ _ => 0)⟩

/-- A solver oracle that reports success and returns the initial guess. -/
def solver0 : Solver := fun _ x0 _ => ⟨true, x0⟩

/-- A solver oracle that always reports non-convergence. -/
def solverFail : Solver := fun _ x0 _ => ⟨false, x0⟩

/-- How an exception of the log-CDF capability surfaces from
`find_optim_prior`: an `AttributeError` is replaced by the capability
error naming the family; any other exception propagates unchanged. -/
def logcdfErrToErr (famName : String) : LogcdfErr → Err
  | .attributeError _ => .attributeError (noLogcdfMsg famName)
  | .other m => .otherError m

/-! ### Dict lemmas -/

theorem dictUpd_of_not_mem {β : Type} {d : List (String × β)} {k : String}
    (v : β) (h : k ∉ d.map Prod.fst) : dictUpd d k v = d ++ [(k, v)] := by
  have : d.any (fun p => p.1 = k) = false := by
    simp only [List.any_eq_false, decide_eq_true_eq]
    intro p hp hpk
    exact h (hpk ▸ List.mem_map_of_mem Prod.fst hp)
  simp [dictUpd, this]

theorem dictUpdate_of_disjoint {β : Type} {e : List (String × β)} :
    ∀ {d : List (String × β)}, (∀ p ∈ e, p.1 ∉ d.map Prod.fst) →
    (e.map Prod.fst).Nodup → dictUpdate d e = d ++ e := by
  induction e with
  | nil => intro d _ _; simp [dictUpdate]
  | cons q e ih =>
      intro d hdisj hnodup
      have h1 : q.1 ∉ d.map Prod.fst := hdisj q (List.mem_cons_self q e)
      have step : dictUpdate d (q :: e) = dictUpdate (d ++ [(q.1, q.2)]) e := by
        simp [dictUpdate, dictUpd_of_not_mem q.2 h1]
      rw [step, ih ?_ (by simpa using hnodup.of_cons)]
      · simp
      · intro p hp
        simp only [List.map_append, List.mem_append]
        rintro (hd | hq)
        · exact hdisj p (List.mem_cons_of_mem q hp) hd
        · have : p.1 = q.1 := by simpa using hq
          have : q.1 ∈ e.map Prod.fst := this ▸ List.mem_map_of_mem Prod.fst hp
          exact (List.nodup_cons.mp (by simpa using hnodup)).1 this

theorem mem_dictUpd {β : Type} {d : List (String × β)} {k : String} {v : β}
    {p : String × β} (hp : p ∈ dictUpd d k v) :
    p = (k, v) ∨ (p ∈ d ∧ p.1 ≠ k) := by
  unfold dictUpd at hp
  by_cases hany : d.any (fun p => p.1 = k) = true
  · rw [if_pos hany] at hp
    rcases List.mem_map.mp hp with ⟨q, hq, hqe⟩
    by_cases hqk : q.1 = k
    · left; rw [if_pos hqk] at hqe; exact hqe.symm
    · right; rw [if_neg hqk] at hqe; exact ⟨hqe ▸ hq, hqe ▸ hqk⟩
  · rw [if_neg hany] at hp
    rcases List.mem_append.mp hp with hd | he
    · right
      refine ⟨hd, fun hpk => ?_⟩
      simp only [List.any_eq_true, decide_eq_true_eq, not_exists] at hany
      exact hany p ⟨hd, hpk⟩
    · left; simpa using he

theorem mem_dictUpdate {β : Type} {e : List (String × β)} :
    ∀ {d : List (String × β)} {p : String × β}, p ∈ dictUpdate d e →
    p ∈ e ∨ (p ∈ d ∧ p.1 ∉ e.map Prod.fst) := by
  induction e with
  | nil => intro d p hp; right; simpa [dictUpdate] using hp
  | cons q e ih =>
      intro d p hp
      have hp' : p ∈ dictUpdate (dictUpd d q.1 q.2) e := by
        simpa [dictUpdate] using hp
      rcases ih hp' with he | ⟨hu, hne⟩
      · exact Or.inl (List.mem_cons_of_mem q he)
      · rcases mem_dictUpd hu with hq | ⟨hd, hk⟩
        · exact Or.inl (hq ▸ List.mem_cons_self q e)
        · right
          exact ⟨hd, by simpa using not_or.mpr ⟨hk, hne⟩⟩

theorem lookup_replace_of_mem {β : Type} {d : List (String × β)} {k : String}
    (v : β) (h : k ∈ d.map Prod.fst) :
    List.lookup k (d.map (fun p => if p.1 = k then (k, v) else p)) = some v := by
  induction d with
  | nil => simp at h
  | cons q t ih =>
      obtain ⟨qk, qv⟩ := q
      rw [List.map_cons]
      by_cases hq : qk = k
      · have hhead : (if (qk, qv).1 = k then (k, v) else (qk, qv)) = (k, v) := by
          simp [hq]
        rw [hhead]
        simp [List.lookup]
      · have hhead : (if (qk, qv).1 = k then (k, v) else (qk, qv)) = (qk, qv) := by
          simp [hq]
        have hk : k ∈ t.map Prod.fst := by
          rcases (by simpa using h) with h1 | h1
          · exact absurd h1.symm hq
          · simpa using h1
        have hne : (k == qk) = false := beq_eq_false_iff_ne.mpr (fun he => hq he.symm)
        rw [hhead]
        simpa [List.lookup, hne] using ih hk

theorem lookup_replace_ne {β : Type} {d : List (String × β)} {k k' : String}
    (v : β) (h : k' ≠ k) :
    List.lookup k' (d.map (fun p => if p.1 = k then (k, v) else p))
      = List.lookup k' d := by
  induction d with
  | nil => simp
  | cons q t ih =>
      obtain ⟨qk, qv⟩ := q
      rw [List.map_cons]
      by_cases hq : qk = k
      · have hhead : (if (qk, qv).1 = k then (k, v) else (qk, qv)) = (k, v) := by
          simp [hq]
        have h1 : (k' == k) = false := beq_eq_false_iff_ne.mpr h
        have h2 : (k' == qk) = false := beq_eq_false_iff_ne.mpr (hq ▸ h)
        rw [hhead]
        simp [List.lookup, h1, h2, ih]
      · have hhead : (if (qk, qv).1 = k then (k, v) else (qk, qv)) = (qk, qv) := by
          simp [hq]
        rw [hhead]
        by_cases hk : k' = qk
        · simp [List.lookup, hk]
        · have h2 : (k' == qk) = false := beq_eq_false_iff_ne.mpr hk
          simp [List.lookup, h2, ih]

theorem lookup_append_of_not_mem {β : Type} {d : List (String × β)}
    {k : String} (e : List (String × β)) (h : k ∉ d.map Prod.fst) :
    List.lookup k (d ++ e) = List.lookup k e := by
  induction d with
  | nil => simp
  | cons q t ih =>
      have h1 : k ≠ q.1 := fun he => h (by simp [he])
      have h2 : (k == q.1) = false := beq_eq_false_iff_ne.mpr h1
      have h3 : k ∉ t.map Prod.fst := fun he => h (by simp [he])
      simpa [List.lookup, h2] using ih h3

theorem lookup_dictUpd_self {β : Type} (d : List (String × β)) (k : String)
    (v : β) : List.lookup k (dictUpd d k v) = some v := by
  unfold dictUpd
  by_cases hany : d.any (fun p => p.1 = k) = true
  · rw [if_pos hany]
    rcases List.any_eq_true.mp hany with ⟨p, hp, hpk⟩
    exact lookup_replace_of_mem v
      ((of_decide_eq_true hpk) ▸ List.mem_map_of_mem Prod.fst hp)
  · rw [if_neg hany]
    have h : k ∉ d.map Prod.fst := by
      intro hk
      rcases List.mem_map.mp hk with ⟨p, hp, hpk⟩
      exact hany (List.any_eq_true.mpr ⟨p, hp, decide_eq_true hpk⟩)
    simp [lookup_append_of_not_mem _ h, List.lookup]

theorem lookup_dictUpd_ne {β : Type} (d : List (String × β)) {k k' : String}
    (v : β) (h : k' ≠ k) :
    List.lookup k' (dictUpd d k v) = List.lookup k' d := by
  unfold dictUpd
  by_cases hany : d.any (fun p => p.1 = k) = true
  · rw [if_pos hany]; exact lookup_replace_ne v h
  · rw [if_neg hany]
    induction d with
    | nil => simp [List.lookup, beq_eq_false_iff_ne.mpr h]
    | cons q t ih =>
        by_cases hk : k' = q.1
        · simp [List.lookup, hk]
        · have h2 : (k' == q.1) = false := beq_eq_false_iff_ne.mpr hk
          have : ¬ t.any (fun p => p.1 = k) = true := by
            intro ha
            rcases List.any_eq_true.mp ha with ⟨p, hp, hpk⟩
            exact hany (List.any_eq_true.mpr ⟨p, List.mem_cons_of_mem q hp, hpk⟩)
          simpa [List.lookup, h2] using ih this

theorem lookup_dictUpdate_of_not_mem {β : Type} {e : List (String × β)} :
    ∀ {d : List (String × β)} {k : String}, k ∉ e.map Prod.fst →
    List.lookup k (dictUpdate d e) = List.lookup k d := by
  induction e with
  | nil => intro d k _; rfl
  | cons q t ih =>
      intro d k hk
      have h1 : k ≠ q.1 := fun he => hk (by simp [he])
      have h2 : k ∉ t.map Prod.fst := fun he => hk (by simp [he])
      have step : dictUpdate d (q :: t) = dictUpdate (dictUpd d q.1 q.2) t := rfl
      rw [step, ih h2, lookup_dictUpd_ne d q.2 h1]

theorem lookup_dictUpdate_of_mem {β : Type} {e : List (String × β)} :
    ∀ {d : List (String × β)} {k : String} {v : β},
    (e.map Prod.fst).Nodup → (k, v) ∈ e →
    List.lookup k (dictUpdate d e) = some v := by
  induction e with
  | nil => intro d k v _ h; simp at h
  | cons q t ih =>
      intro d k v hnd hkv
      have step : dictUpdate d (q :: t) = dictUpdate (dictUpd d q.1 q.2) t := rfl
      rw [List.map_cons, List.nodup_cons] at hnd
      rcases List.mem_cons.mp hkv with hq | ht
      · have hk : k ∉ t.map Prod.fst := by
          have h1 : q.1 = k := by rw [← hq]
          exact h1 ▸ hnd.1
        rw [step, lookup_dictUpdate_of_not_mem hk, ← hq]
        exact lookup_dictUpd_self d k v
      · exact step ▸ ih hnd.2 ht

theorem lookup_zip {ks : List String} :
    ∀ {xs : List ℚ} {i : Nat} (hi : i < ks.length) (hx : i < xs.length),
    ks.Nodup → List.lookup (ks.get ⟨i, hi⟩) (ks.zip xs) = some (xs.get ⟨i, hx⟩) := by
  induction ks with
  | nil => intro xs i hi; simp at hi
  | cons k kt ih =>
      intro xs i hi hx hnd
      match xs, i with
      | x :: xt, 0 => simp [List.lookup]
      | x :: xt, i + 1 =>
          have hi' : i < kt.length := by simpa using hi
          have hget : (k :: kt).get ⟨i + 1, hi⟩ = kt.get ⟨i, hi'⟩ := rfl
          have hmem : kt.get ⟨i, hi'⟩ ∈ kt := List.get_mem kt i hi'
          have hne : kt.get ⟨i, hi'⟩ ≠ k := by
            intro he
            exact (List.nodup_cons.mp hnd).1 (he ▸ hmem)
          have h2 : (kt.get ⟨i, hi'⟩ == k) = false :=
            beq_eq_false_iff_ne.mpr hne
          have := @ih xt i hi' (by simpa using hx)
            (List.nodup_cons.mp hnd).2
          simp only [List.get_eq_getElem] at h2 this
          simpa [List.lookup, List.zip, hget, h2] using this

/-! ### The built residual evaluates to the spec's formula -/

theorem map_fst_freeBase (init : ParamMap) :
    (init.enum.map (fun p => (p.2.1, PExpr.free p.1))).map Prod.fst
      = init.map Prod.fst := by
  rw [List.map_map]
  have h : (Prod.fst ∘ fun p : Nat × (String × ℚ) => (p.2.1, PExpr.free p.1))
      = Prod.fst ∘ Prod.snd := rfl
  rw [h, ← List.map_map, List.enum_map_snd]

theorem map_fst_constLift (fp : ParamMap) :
    ((fp.map (fun p => (p.1, PExpr.const p.2))).map Prod.fst)
      = fp.map Prod.fst := by
  rw [List.map_map]; rfl

theorem evalSymMap_append (a b : SymMap) (x : List ℚ) :
    evalSymMap (a ++ b) x = evalSymMap a x ++ evalSymMap b x := by
  simp [evalSymMap]

theorem evalSymMap_constLift (fp : ParamMap) (x : List ℚ) :
    evalSymMap (fp.map (fun p => (p.1, PExpr.const p.2))) x = fp := by
  unfold evalSymMap
  rw [List.map_map]
  have h : ((fun p : String × PExpr => (p.1, p.2.evalAt x))
      ∘ fun p : String × ℚ => (p.1, PExpr.const p.2)) = id := rfl
  rw [h, List.map_id]

theorem evalSymMap_freeBase (init : ParamMap) (x : List ℚ) :
    evalSymMap (init.enum.map (fun p => (p.2.1, PExpr.free p.1))) x
      = freeAssign init x := by
  unfold evalSymMap freeAssign
  rw [List.map_map]
  rfl

theorem evalSymMap_build (init : ParamMap) (fp : Option ParamMap) (x : List ℚ)
    (hd : ∀ p ∈ fp.getD [], p.1 ∉ init.map Prod.fst)
    (hn : ((fp.getD []).map Prod.fst).Nodup) :
    evalSymMap (build_params_to_optim init fp) x
      = specResidualParams init fp x := by
  cases fp with
  | none =>
      unfold build_params_to_optim specResidualParams
      simpa using evalSymMap_freeBase init x
  | some fpl =>
      unfold build_params_to_optim specResidualParams
      dsimp only
      rw [dictUpdate_of_disjoint ?_ ?_]
      · rw [evalSymMap_append, evalSymMap_freeBase, evalSymMap_constLift]
        rfl
      · intro p hp
        rcases List.mem_map.mp hp with ⟨q, hq, rfl⟩
        rw [map_fst_freeBase]
        exact hd q (by simpa using hq)
      · rw [map_fst_constLift]
        simpa using hn

/-! ### Path lemmas for `find_optim_prior` -/

theorem find_optim_prior_ok (pexp : ℚ → ℚ) (solver : Solver)
    (grad : Option (List ℚ → List ℚ)) (fam : DistFamily) (lower upper : ℚ)
    (init : ParamMap) (mass : ℚ) (fp : Option ParamMap)
    (L : ParamMap → ℚ → ℚ)
    (hm : (1 : ℚ)/100 < mass ∧ mass < 99/100)
    (hs : fam.ndims_params.any (fun n => n ≠ 0) = false)
    (hL : fam.logcdf = .ok L)
    (hsucc : (solver
        (cdf_error_fn pexp L (build_params_to_optim init fp) lower upper mass)
        (init.map Prod.snd) (jacArg grad)).success = true) :
    find_optim_prior pexp solver grad fam lower upper init mass fp
      = (.ok (mergedParams init fp (solver
            (cdf_error_fn pexp L (build_params_to_optim init fp) lower upper mass)
            (init.map Prod.snd) (jacArg grad)).x),
          if (1 : ℚ)/100 ≤ |mass_in_interval pexp L (mergedParams init fp (solver
              (cdf_error_fn pexp L (build_params_to_optim init fp) lower upper mass)
              (init.map Prod.snd) (jacArg grad)).x) lower upper - mass|
          then [.solverCall (jacArg grad).kind, .warnTolerance]
          else [.solverCall (jacArg grad).kind]) := by
  unfold find_optim_prior
  rw [if_neg (not_not_intro hm), if_neg (by rw [hs]; exact Bool.false_ne_true), hL]
  dsimp only
  rw [if_neg (not_not_intro hsucc)]
  split_ifs with hc <;> rfl

theorem find_optim_prior_fail (pexp : ℚ → ℚ) (solver : Solver)
    (grad : Option (List ℚ → List ℚ)) (fam : DistFamily) (lower upper : ℚ)
    (init : ParamMap) (mass : ℚ) (fp : Option ParamMap)
    (L : ParamMap → ℚ → ℚ)
    (hm : (1 : ℚ)/100 < mass ∧ mass < 99/100)
    (hs : fam.ndims_params.any (fun n => n ≠ 0) = false)
    (hL : fam.logcdf = .ok L)
    (hfail : (solver
        (cdf_error_fn pexp L (build_params_to_optim init fp) lower upper mass)
        (init.map Prod.snd) (jacArg grad)).success = false) :
    find_optim_prior pexp solver grad fam lower upper init mass fp
      = (.error (.valueError "Optimization of parameters failed."),
          [.solverCall (jacArg grad).kind]) := by
  unfold find_optim_prior
  rw [if_neg (not_not_intro hm), if_neg (by rw [hs]; exact Bool.false_ne_true), hL]
  dsimp only
  rw [if_pos (by rw [hfail]; exact Bool.false_ne_true)]

theorem lookup_append_left {β : Type} {d : List (String × β)} {k : String}
    {v : β} (e : List (String × β)) (h : List.lookup k d = some v) :
    List.lookup k (d ++ e) = some v := by
  induction d with
  | nil => simp [List.lookup] at h
  | cons q t ih =>
      obtain ⟨qk, qv⟩ := q
      by_cases hk : k = qk
      · simp only [List.lookup, List.cons_append, beq_iff_eq, hk, if_pos] at h ⊢
        simpa using h
      · have h2 : (k == qk) = false := beq_eq_false_iff_ne.mpr hk
        simp only [List.lookup, List.cons_append, h2] at h ⊢
        exact ih h

theorem lookup_of_mem_nodup {β : Type} {e : List (String × β)} {k : String}
    {v : β} (hn : (e.map Prod.fst).Nodup) (hkv : (k, v) ∈ e) :
    List.lookup k e = some v := by
  induction e with
  | nil => simp at hkv
  | cons q t ih =>
      rw [List.map_cons, List.nodup_cons] at hn
      rcases List.mem_cons.mp hkv with hq | ht
      · rw [← hq]
        simp [List.lookup]
      · have hkt : k ∈ t.map Prod.fst := List.mem_map_of_mem Prod.fst ht
        have hne : k ≠ q.1 := fun he => hn.1 (he ▸ hkt)
        have h2 : (k == q.1) = false := beq_eq_false_iff_ne.mpr hne
        obtain ⟨qk, qv⟩ := q
        simp only [List.lookup, h2]
        exact ih hn.2 ht

theorem mergedParams_disjoint (init : ParamMap) (fp : Option ParamMap)
    (xs : List ℚ) (hlen : xs.length = init.length)
    (hd : ∀ p ∈ fp.getD [], p.1 ∉ init.map Prod.fst)
    (hn : ((fp.getD []).map Prod.fst).Nodup) :
    mergedParams init fp xs = (init.map Prod.fst).zip xs ++ fp.getD [] := by
  have hkeys : ((init.map Prod.fst).zip xs).map Prod.fst = init.map Prod.fst :=
    List.map_fst_zip _ _ (by simp [hlen])
  cases fp with
  | none => simp [mergedParams]
  | some fpl =>
      unfold mergedParams
      dsimp only
      rw [dictUpdate_of_disjoint ?_ ?_]
      · rfl
      · intro p hp
        rw [hkeys]
        exact hd p (by simpa using hp)
      · simpa using hn

theorem evalAt_set_of_ne (p : PExpr) (x : List ℚ) (i : Nat) (a : ℚ)
    (hp : ∀ j, p = .free j → j ≠ i) :
    p.evalAt (x.set i a) = p.evalAt x := by
  cases p with
  | const q => rfl
  | free j =>
      have hj : j ≠ i := hp j rfl
      simp only [PExpr.evalAt]
      rw [List.getD_eq_getElem?_getD, List.getD_eq_getElem?_getD,
        List.getElem?_set_ne (fun he => hj he.symm)]

theorem mem_build_params_to_optim (init : ParamMap) (fpl : ParamMap)
    {p : String × PExpr}
    (hp : p ∈ build_params_to_optim init (some fpl)) :
    (∃ q, p.2 = PExpr.const q)
    ∨ (∃ j, ∃ hj : j < init.length, p.2 = PExpr.free j
        ∧ p.1 = (init.get ⟨j, hj⟩).1 ∧ p.1 ∉ fpl.map Prod.fst) := by
  unfold build_params_to_optim at hp
  dsimp only at hp
  rcases mem_dictUpdate hp with hc | ⟨hb, hnf⟩
  · rcases List.mem_map.mp hc with ⟨q, _, rfl⟩
    exact Or.inl ⟨q.2, rfl⟩
  · rcases List.mem_map.mp hb with ⟨pr, hpr, rfl⟩
    have hg : init.get? pr.1 = some pr.2 := by
      have : (pr.1, pr.2) ∈ init.enum := by simpa using hpr
      exact List.mk_mem_enum_iff_get?.mp this
    have hj : pr.1 < init.length := List.get?_eq_some.mp hg |>.1
    refine Or.inr ⟨pr.1, hj, rfl, ?_, ?_⟩
    · have := (List.get?_eq_some.mp hg).2
      rcases (List.get?_eq_some.mp hg) with ⟨hlt, hget⟩
      simp [← hget]
    · rw [map_fst_constLift] at hnf
      exact hnf

/-! ### The claims -/

/-- C1: the residual function built by `find_optim_prior`, evaluated at a
vector `x` of free-parameter values ordered per the keys of `init_guess`
and with `fixed_params` closed over as constants, equals
`exp(logCDF(upper; free=x, fixed)) - exp(logCDF(lower; free=x, fixed)) - mass`
for every input vector `x` (the free/fixed parameter names being disjoint
and the fixed names distinct, as for Python dict arguments). -/
theorem claim_C1_residual_formula (pexp : ℚ → ℚ) (logcdf : ParamMap → ℚ → ℚ)
    (init : ParamMap) (fp : Option ParamMap) (lower upper mass : ℚ)
    (hd : ∀ p ∈ fp.getD [], p.1 ∉ init.map Prod.fst)
    (hn : ((fp.getD []).map Prod.fst).Nodup) (x : List ℚ) :
    cdf_error_fn pexp logcdf (build_params_to_optim init fp) lower upper mass x
      = (pexp (logcdf (specResidualParams init fp x) upper)
          - pexp (logcdf (specResidualParams init fp x) lower)) - mass := by
  unfold cdf_error_fn
  rw [evalSymMap_build init fp x hd hn]
  rfl

/-- Witness for C1 at a concrete family, guesses, fixed parameters and
input vector. -/
theorem claim_C1_residual_formula_witness :
    (∀ p ∈ (some [("nu", (7 : ℚ))]).getD [],
        p.1 ∉ ([("mu", (5 : ℚ)), ("sigma", 3)]).map Prod.fst)
    ∧ (((some [("nu", (7 : ℚ))]).getD []).map Prod.fst).Nodup
    ∧ cdf_error_fn (fun q => q + 1) L0
        (build_params_to_optim [("mu", 5), ("sigma", 3)] (some [("nu", 7)]))
        0 10 (95/100) [2, 4]
      = ((fun q => q + 1) (L0
            (specResidualParams [("mu", 5), ("sigma", 3)] (some [("nu", 7)]) [2, 4]) 10)
          - (fun q => q + 1) (L0
            (specResidualParams [("mu", 5), ("sigma", 3)] (some [("nu", 7)]) [2, 4]) 0))
          - 95/100 :=
  ⟨by decide, by decide,
    claim_C1_residual_formula (fun q => q + 1) L0 [("mu", 5), ("sigma", 3)]
      (some [("nu", 7)]) 0 10 (95/100) (by decide) (by decide) [2, 4]⟩

/-- C3: for every mass outside the open interval (0.01, 0.99) -- including
exactly 0.01 and 0.99, and the values 0.0 and 1.0 -- `find_optim_prior`
raises before any residual construction, differentiation, or solver
invocation takes place (the result is the assertion error for every
family, solver and gradient provider, and the event trace is empty). -/
theorem claim_C3_mass_guard (pexp : ℚ → ℚ) (solver : Solver)
    (grad : Option (List ℚ → List ℚ)) (fam : DistFamily) (lower upper : ℚ)
    (init : ParamMap) (mass : ℚ) (fp : Option ParamMap)
    (hm : mass ≤ (1 : ℚ)/100 ∨ (99 : ℚ)/100 ≤ mass) :
    find_optim_prior pexp solver grad fam lower upper init mass fp
      = (.error .assertionError, []) := by
  unfold find_optim_prior
  rw [if_pos]
  rintro ⟨h1, h2⟩
  rcases hm with h | h
  · exact absurd h1 (not_lt.mpr h)
  · exact absurd h2 (not_lt.mpr h)

/-- Witness for C3 at the boundary mass 0.99. -/
theorem claim_C3_mass_guard_witness :
    ((99 : ℚ)/100 ≤ (1 : ℚ)/100 ∨ (99 : ℚ)/100 ≤ (99 : ℚ)/100)
    ∧ find_optim_prior (fun q => q) solver0 none famOk 0 1 [("mu", 5)]
        (99/100) none = (.error .assertionError, []) :=
  ⟨Or.inr (by norm_num),
    claim_C3_mass_guard (fun q => q) solver0 none famOk 0 1 [("mu", 5)]
      (99/100) none (Or.inr (by norm_num))⟩

/-- C8: for every distribution family declaring at least one non-scalar
parameter, `find_optim_prior` (given a valid mass) fails with the
"unsupported shape" `NotImplementedError` before constructing the residual
or invoking the solver (empty event trace, for every solver and gradient
provider). -/
theorem claim_C8_shape_guard (pexp : ℚ → ℚ) (solver : Solver)
    (grad : Option (List ℚ → List ℚ)) (fam : DistFamily) (lower upper : ℚ)
    (init : ParamMap) (mass : ℚ) (fp : Option ParamMap)
    (hm : (1 : ℚ)/100 < mass ∧ mass < 99/100)
    (hs : fam.ndims_params.any (fun n => n ≠ 0) = true) :
    find_optim_prior pexp solver grad fam lower upper init mass fp
      = (.error (.notImplementedError notScalarMsg), []) := by
  unfold find_optim_prior
  rw [if_neg (not_not_intro hm), if_pos hs]

/-- Witness for C8 at a family with a vector-shaped parameter. -/
theorem claim_C8_shape_guard_witness :
    ((1 : ℚ)/100 < 95/100 ∧ (95 : ℚ)/100 < 99/100)
    ∧ famVec.ndims_params.any (fun n => n ≠ 0) = true
    ∧ find_optim_prior (fun q => q) solver0 none famVec 0 1 [("mu", 5)]
        (95/100) none = (.error (.notImplementedError notScalarMsg), []) :=
  ⟨by norm_num, by decide,
    claim_C8_shape_guard (fun q => q) solver0 none famVec 0 1 [("mu", 5)]
      (95/100) none (by norm_num) (by decide)⟩

/-- C4 (amended): when the family's log-CDF capability raises, only an
`AttributeError` (the missing-logcdf case) is surfaced as the capability
error naming the family; any other exception raised by the log-CDF
evaluation propagates unchanged.  In both cases this happens before the
solver is invoked (empty event trace). -/
theorem claim_C4_logcdf_errors (pexp : ℚ → ℚ) (solver : Solver)
    (grad : Option (List ℚ → List ℚ)) (fam : DistFamily) (lower upper : ℚ)
    (init : ParamMap) (mass : ℚ) (fp : Option ParamMap) (e : LogcdfErr)
    (hm : (1 : ℚ)/100 < mass ∧ mass < 99/100)
    (hs : fam.ndims_params.any (fun n => n ≠ 0) = false)
    (hL : fam.logcdf = .error e) :
    find_optim_prior pexp solver grad fam lower upper init mass fp
      = (.error (logcdfErrToErr fam.name e), []) := by
  unfold find_optim_prior
  rw [if_neg (not_not_intro hm), if_neg (by rw [hs]; exact Bool.false_ne_true), hL]
  cases e <;> rfl


/-- Witness for C4's amended theorem at a family lacking the logcdf
method. -/
theorem claim_C4_logcdf_errors_witness :
    ((1 : ℚ)/100 < 95/100 ∧ (95 : ℚ)/100 < 99/100)
    ∧ famNoCdf.ndims_params.any (fun n => n ≠ 0) = false
    ∧ famNoCdf.logcdf = .error (.attributeError "no attribute logcdf")
    ∧ find_optim_prior (fun q => q) solver0 none famNoCdf 0 1 [("mu", 5)]
        (95/100) none
      = (.error (.attributeError (noLogcdfMsg famNoCdf.name)), []) :=
  ⟨by norm_num, by decide, rfl,
    claim_C4_logcdf_errors (fun q => q) solver0 none famNoCdf 0 1 [("mu", 5)]
      (95/100) none (.attributeError "no attribute logcdf") (by norm_num)
      (by decide) rfl⟩

/-- C4 (counterexample to the claim as stated): a family whose log-CDF
evaluation fails with an exception other than `AttributeError`.  The
failure is surfaced as that exception itself, not as the capability
error naming the family, so not every log-CDF failure becomes the
capability error. -/
theorem claim_C4_counterexample :
    find_optim_prior (fun q => q) solver0 none famBoom 0 1 [("a", 1)]
        (1/2) none = (.error (.otherError "boom"), [])
    ∧ Err.otherError "boom" ≠ Err.attributeError (noLogcdfMsg famBoom.name) := by
  constructor
  · unfold find_optim_prior
    norm_num [famBoom]
  · intro h
    exact Err.noConfusion h

/-- C6: whenever the least-squares solver reports non-convergence,
`find_optim_prior` raises the "optimization failed" `ValueError`, returns
no partial result, and performs no retry: the trace holds exactly one
solver invocation. -/
theorem claim_C6_solver_failure (pexp : ℚ → ℚ) (solver : Solver)
    (grad : Option (List ℚ → List ℚ)) (fam : DistFamily) (lower upper : ℚ)
    (init : ParamMap) (mass : ℚ) (fp : Option ParamMap)
    (L : ParamMap → ℚ → ℚ)
    (hm : (1 : ℚ)/100 < mass ∧ mass < 99/100)
    (hs : fam.ndims_params.any (fun n => n ≠ 0) = false)
    (hL : fam.logcdf = .ok L)
    (hfail : (solver
        (cdf_error_fn pexp L (build_params_to_optim init fp) lower upper mass)
        (init.map Prod.snd) (jacArg grad)).success = false) :
    find_optim_prior pexp solver grad fam lower upper init mass fp
      = (.error (.valueError "Optimization of parameters failed."),
          [.solverCall (jacArg grad).kind]) := by
  unfold find_optim_prior
  rw [if_neg (not_not_intro hm), if_neg (by rw [hs]; exact Bool.false_ne_true), hL]
  dsimp only
  rw [if_pos (by rw [hfail]; exact Bool.false_ne_true)]

/-- Witness for C6 with a solver oracle that always reports
non-convergence. -/
theorem claim_C6_solver_failure_witness :
    ((1 : ℚ)/100 < 95/100 ∧ (95 : ℚ)/100 < 99/100)
    ∧ (solverFail
        (cdf_error_fn (fun q => q) L0
          (build_params_to_optim [("mu", 5)] none) 0 1 (95/100))
        (([("mu", (5 : ℚ))]).map Prod.snd) (jacArg none)).success = false
    ∧ find_optim_prior (fun q => q) solverFail none famOk 0 1 [("mu", 5)]
        (95/100) none
      = (.error (.valueError "Optimization of parameters failed."),
          [.solverCall (jacArg none).kind]) :=
  ⟨by norm_num, rfl,
    claim_C6_solver_failure (fun q => q) solverFail none famOk 0 1 [("mu", 5)]
      (95/100) none L0 (by norm_num) (by decide) rfl rfl⟩

/-- C2: after the solver succeeds, `find_optim_prior` re-evaluates the
achieved mass as `exp(logCDF(upper)) - exp(logCDF(lower))` using the final
merged parameter set, and the tolerance warning is emitted if and only if
`|achieved_mass - mass| >= 0.01`; the warning never aborts the call and
the merged parameter map is still returned. -/
theorem claim_C2_tolerance_warning (pexp : ℚ → ℚ) (solver : Solver)
    (grad : Option (List ℚ → List ℚ)) (fam : DistFamily) (lower upper : ℚ)
    (init : ParamMap) (mass : ℚ) (fp : Option ParamMap)
    (L : ParamMap → ℚ → ℚ)
    (hm : (1 : ℚ)/100 < mass ∧ mass < 99/100)
    (hs : fam.ndims_params.any (fun n => n ≠ 0) = false)
    (hL : fam.logcdf = .ok L)
    (hsucc : (solver
        (cdf_error_fn pexp L (build_params_to_optim init fp) lower upper mass)
        (init.map Prod.snd) (jacArg grad)).success = true) :
    ((find_optim_prior pexp solver grad fam lower upper init mass fp).1
      = .ok (mergedParams init fp (solver
          (cdf_error_fn pexp L (build_params_to_optim init fp) lower upper mass)
          (init.map Prod.snd) (jacArg grad)).x))
    ∧ (Event.warnTolerance
        ∈ (find_optim_prior pexp solver grad fam lower upper init mass fp).2
      ↔ (1 : ℚ)/100 ≤ |mass_in_interval pexp L (mergedParams init fp (solver
          (cdf_error_fn pexp L (build_params_to_optim init fp) lower upper mass)
          (init.map Prod.snd) (jacArg grad)).x) lower upper - mass|) := by
  rw [find_optim_prior_ok pexp solver grad fam lower upper init mass fp L
    hm hs hL hsucc]
  refine ⟨rfl, ?_⟩
  split_ifs with hc
  · exact iff_of_true (by simp) hc
  · exact iff_of_false (by simp) hc

/-- Witness for C2 at a concrete family, solver and arguments. -/
theorem claim_C2_tolerance_warning_witness :
    ((1 : ℚ)/100 < 95/100 ∧ (95 : ℚ)/100 < 99/100)
    ∧ famOk.logcdf = .ok L0
    ∧ (solver0
        (cdf_error_fn (fun q => q) L0
          (build_params_to_optim [("mu", 5), ("sigma", 3)] none) 0 1 (95/100))
        (([("mu", (5 : ℚ)), ("sigma", 3)]).map Prod.snd) (jacArg none)).success
      = true
    ∧ ((find_optim_prior (fun q => q) solver0 none famOk 0 1
          [("mu", 5), ("sigma", 3)] (95/100) none).1
        = .ok (mergedParams [("mu", 5), ("sigma", 3)] none (solver0
            (cdf_error_fn (fun q => q) L0
              (build_params_to_optim [("mu", 5), ("sigma", 3)] none) 0 1 (95/100))
            (([("mu", (5 : ℚ)), ("sigma", 3)]).map Prod.snd) (jacArg none)).x)) :=
  ⟨by norm_num, rfl, rfl,
    (claim_C2_tolerance_warning (fun q => q) solver0 none famOk 0 1
      [("mu", 5), ("sigma", 3)] (95/100) none L0 (by norm_num) (by decide)
      rfl rfl).1⟩

/-- C5: when automatic differentiation of the residual fails (the gradient
provider yields nothing), `find_optim_prior` recovers silently -- the call
reaches the solver, which is passed the two-point finite-difference
sentinel, and the only error that can still surface is the solver's own
non-convergence error; otherwise the merged parameter map is returned. -/
theorem claim_C5_grad_fallback (pexp : ℚ → ℚ) (solver : Solver)
    (fam : DistFamily) (lower upper : ℚ) (init : ParamMap) (mass : ℚ)
    (fp : Option ParamMap) (L : ParamMap → ℚ → ℚ)
    (hm : (1 : ℚ)/100 < mass ∧ mass < 99/100)
    (hs : fam.ndims_params.any (fun n => n ≠ 0) = false)
    (hL : fam.logcdf = .ok L) :
    (Event.solverCall JacKind.twoPoint
      ∈ (find_optim_prior pexp solver none fam lower upper init mass fp).2)
    ∧ ((find_optim_prior pexp solver none fam lower upper init mass fp).1
        = .error (.valueError "Optimization of parameters failed.")
      ∨ (find_optim_prior pexp solver none fam lower upper init mass fp).1
        = .ok (mergedParams init fp (solver
            (cdf_error_fn pexp L (build_params_to_optim init fp) lower upper mass)
            (init.map Prod.snd) JacArg.twoPoint).x)) := by
  by_cases hsucc : (solver
      (cdf_error_fn pexp L (build_params_to_optim init fp) lower upper mass)
      (init.map Prod.snd) (jacArg none)).success = true
  · rw [find_optim_prior_ok pexp solver none fam lower upper init mass fp L
      hm hs hL hsucc]
    constructor
    · split_ifs with hc <;> simp [jacArg, JacArg.kind]
    · right; rfl
  · have hfail : (solver
        (cdf_error_fn pexp L (build_params_to_optim init fp) lower upper mass)
        (init.map Prod.snd) (jacArg none)).success = false := by
      revert hsucc
      cases (solver
        (cdf_error_fn pexp L (build_params_to_optim init fp) lower upper mass)
        (init.map Prod.snd) (jacArg none)).success <;> simp
    rw [find_optim_prior_fail pexp solver none fam lower upper init mass fp L
      hm hs hL hfail]
    exact ⟨by simp [jacArg, JacArg.kind], Or.inl rfl⟩

/-- Witness for C5 at a concrete family and solver. -/
theorem claim_C5_grad_fallback_witness :
    ((1 : ℚ)/100 < 95/100 ∧ (95 : ℚ)/100 < 99/100)
    ∧ famOk.logcdf = .ok L0
    ∧ (Event.solverCall JacKind.twoPoint
        ∈ (find_optim_prior (fun q => q) solver0 none famOk 0 1 [("mu", 5)]
            (95/100) none).2) :=
  ⟨by norm_num, rfl,
    (claim_C5_grad_fallback (fun q => q) solver0 famOk 0 1 [("mu", 5)]
      (95/100) none L0 (by norm_num) (by decide) rfl).1⟩

/-- C7: on success, the returned map's key list is the keys of
`init_guess` followed by those of `fixed_params`; each `init_guess` key
maps to the corresponding component (by key order) of the solver's
solution vector, and each `fixed_params` entry appears in the result with
exactly the caller-supplied value (free and fixed key sets being disjoint
and without duplicates, and the solver returning a vector of the free
arity). -/
theorem claim_C7_merged_result (pexp : ℚ → ℚ) (solver : Solver)
    (grad : Option (List ℚ → List ℚ)) (fam : DistFamily) (lower upper : ℚ)
    (init : ParamMap) (mass : ℚ) (fp : Option ParamMap)
    (L : ParamMap → ℚ → ℚ)
    (hm : (1 : ℚ)/100 < mass ∧ mass < 99/100)
    (hs : fam.ndims_params.any (fun n => n ≠ 0) = false)
    (hL : fam.logcdf = .ok L)
    (hsucc : (solver
        (cdf_error_fn pexp L (build_params_to_optim init fp) lower upper mass)
        (init.map Prod.snd) (jacArg grad)).success = true)
    (hnI : (init.map Prod.fst).Nodup)
    (hnF : ((fp.getD []).map Prod.fst).Nodup)
    (hd : ∀ p ∈ fp.getD [], p.1 ∉ init.map Prod.fst)
    (hlen : (solver
        (cdf_error_fn pexp L (build_params_to_optim init fp) lower upper mass)
        (init.map Prod.snd) (jacArg grad)).x.length = init.length) :
    ((find_optim_prior pexp solver grad fam lower upper init mass fp).1
      = .ok ((init.map Prod.fst).zip (solver
          (cdf_error_fn pexp L (build_params_to_optim init fp) lower upper mass)
          (init.map Prod.snd) (jacArg grad)).x ++ fp.getD []))
    ∧ (((init.map Prod.fst).zip (solver
          (cdf_error_fn pexp L (build_params_to_optim init fp) lower upper mass)
          (init.map Prod.snd) (jacArg grad)).x ++ fp.getD []).map Prod.fst
        = init.map Prod.fst ++ (fp.getD []).map Prod.fst)
    ∧ (∀ i, ∀ hi : i < (init.map Prod.fst).length,
        ∀ hx : i < (solver
          (cdf_error_fn pexp L (build_params_to_optim init fp) lower upper mass)
          (init.map Prod.snd) (jacArg grad)).x.length,
        List.lookup ((init.map Prod.fst).get ⟨i, hi⟩)
          ((init.map Prod.fst).zip (solver
            (cdf_error_fn pexp L (build_params_to_optim init fp) lower upper mass)
            (init.map Prod.snd) (jacArg grad)).x ++ fp.getD [])
          = some ((solver
            (cdf_error_fn pexp L (build_params_to_optim init fp) lower upper mass)
            (init.map Prod.snd) (jacArg grad)).x.get ⟨i, hx⟩))
    ∧ (∀ p ∈ fp.getD [],
        List.lookup p.1
          ((init.map Prod.fst).zip (solver
            (cdf_error_fn pexp L (build_params_to_optim init fp) lower upper mass)
            (init.map Prod.snd) (jacArg grad)).x ++ fp.getD [])
          = some p.2) := by
  have hkeys : ((init.map Prod.fst).zip (solver
      (cdf_error_fn pexp L (build_params_to_optim init fp) lower upper mass)
      (init.map Prod.snd) (jacArg grad)).x).map Prod.fst = init.map Prod.fst :=
    List.map_fst_zip _ _ (by simp [hlen])
  refine ⟨?_, ?_, ?_, ?_⟩
  · rw [find_optim_prior_ok pexp solver grad fam lower upper init mass fp L
      hm hs hL hsucc,
      mergedParams_disjoint init fp _ hlen hd hnF]
  · rw [List.map_append, hkeys]
  · intro i hi hx
    exact lookup_append_left _ (lookup_zip hi hx hnI)
  · intro p hp
    rw [lookup_append_of_not_mem _ (by rw [hkeys]; exact hd p hp)]
    exact lookup_of_mem_nodup hnF hp

/-- Witness for C7 with a three-parameter family, two free parameters and
one fixed parameter. -/
theorem claim_C7_merged_result_witness :
    ((1 : ℚ)/100 < 95/100 ∧ (95 : ℚ)/100 < 99/100)
    ∧ famOk.logcdf = .ok L0
    ∧ (∀ p ∈ (some [("nu", (7 : ℚ))]).getD [],
        p.1 ∉ ([("mu", (5 : ℚ)), ("sigma", 3)]).map Prod.fst)
    ∧ ((find_optim_prior (fun q => q) solver0 none famOk 0 1
          [("mu", 5), ("sigma", 3)] (95/100) (some [("nu", 7)])).1
        = .ok (([("mu", (5 : ℚ)), ("sigma", 3)].map Prod.fst).zip (solver0
            (cdf_error_fn (fun q => q) L0
              (build_params_to_optim [("mu", 5), ("sigma", 3)]
                (some [("nu", 7)])) 0 1 (95/100))
            (([("mu", (5 : ℚ)), ("sigma", 3)]).map Prod.snd) (jacArg none)).x
          ++ (some [("nu", (7 : ℚ))]).getD [])) :=
  ⟨by norm_num, rfl, by decide,
    (claim_C7_merged_result (fun q => q) solver0 none famOk 0 1
      [("mu", 5), ("sigma", 3)] (95/100) (some [("nu", 7)]) L0 (by norm_num)
      (by decide) rfl rfl (by decide) (by decide) (by decide) rfl).1⟩

/-- C9: if a parameter name appears in both `init_guess` and
`fixed_params`, the fixed value silently wins: the distribution used for
the residual is constructed with the fixed value, hence the corresponding
component of the optimization vector has no effect on the residual, and
the returned map contains the fixed value for that key, overwriting the
solver's output. -/
theorem claim_C9_fixed_shadows_free (pexp : ℚ → ℚ) (solver : Solver)
    (grad : Option (List ℚ → List ℚ)) (fam : DistFamily) (lower upper : ℚ)
    (init : ParamMap) (mass : ℚ) (fpl : ParamMap) (L : ParamMap → ℚ → ℚ)
    (k : String) (v : ℚ) (i : Nat) (hi : i < init.length)
    (hm : (1 : ℚ)/100 < mass ∧ mass < 99/100)
    (hs : fam.ndims_params.any (fun n => n ≠ 0) = false)
    (hL : fam.logcdf = .ok L)
    (hsucc : (solver
        (cdf_error_fn pexp L (build_params_to_optim init (some fpl)) lower upper mass)
        (init.map Prod.snd) (jacArg grad)).success = true)
    (hnF : (fpl.map Prod.fst).Nodup)
    (hkv : (k, v) ∈ fpl)
    (hk : (init.get ⟨i, hi⟩).1 = k) :
    (∀ x a, cdf_error_fn pexp L (build_params_to_optim init (some fpl))
        lower upper mass (x.set i a)
      = cdf_error_fn pexp L (build_params_to_optim init (some fpl))
        lower upper mass x)
    ∧ ((find_optim_prior pexp solver grad fam lower upper init mass (some fpl)).1
        = .ok (mergedParams init (some fpl) (solver
            (cdf_error_fn pexp L (build_params_to_optim init (some fpl)) lower upper mass)
            (init.map Prod.snd) (jacArg grad)).x))
    ∧ (∀ xs, List.lookup k (mergedParams init (some fpl) xs) = some v) := by
  refine ⟨?_, ?_, ?_⟩
  · intro x a
    have heval : evalSymMap (build_params_to_optim init (some fpl)) (x.set i a)
        = evalSymMap (build_params_to_optim init (some fpl)) x := by
      unfold evalSymMap
      refine List.map_congr_left (fun p hp => ?_)
      rcases mem_build_params_to_optim init fpl hp with ⟨q, hq⟩ | ⟨j, hj, hf, hkey, hnot⟩
      · rw [hq]
        rfl
      · have hji : j ≠ i := by
          intro he
          subst he
          have : p.1 = k := by rw [hkey, hk]
          exact hnot (this ▸ List.mem_map_of_mem Prod.fst hkv)
        rw [evalAt_set_of_ne p.2 x i a (fun j2 hj2 => by
          rw [hf] at hj2
          exact PExpr.free.inj hj2 ▸ hji)]
    unfold cdf_error_fn
    rw [heval]
  · rw [find_optim_prior_ok pexp solver grad fam lower upper init mass
      (some fpl) L hm hs hL hsucc]
  · intro xs
    unfold mergedParams
    dsimp only
    exact lookup_dictUpdate_of_mem hnF hkv

/-- Witness for C9 where "sigma" is both a free and a fixed parameter. -/
theorem claim_C9_fixed_shadows_free_witness :
    ((1 : ℚ)/100 < 95/100 ∧ (95 : ℚ)/100 < 99/100)
    ∧ (("sigma", (10 : ℚ)) ∈ ([("sigma", (10 : ℚ))]))
    ∧ (([("mu", (5 : ℚ)), ("sigma", 3)]).get
        ⟨1, by decide⟩).1 = "sigma"
    ∧ (∀ xs, List.lookup "sigma"
        (mergedParams [("mu", 5), ("sigma", 3)] (some [("sigma", 10)]) xs)
        = some 10) :=
  ⟨by norm_num, by decide, by decide,
    (claim_C9_fixed_shadows_free (fun q => q) solver0 none famOk 0 1
      [("mu", 5), ("sigma", 3)] (95/100) [("sigma", 10)] L0 "sigma" 10 1
      (by decide) (by norm_num) (by decide) rfl rfl (by decide) (by decide)
      (by decide)).2.2⟩

/-! ### Store lemmas and the frame claim -/

theorem le_foldr_max {l : List Nat} {r : Nat} (h : r ∈ l) :
    r ≤ l.foldr max 0 := by
  induction l with
  | nil => simp at h
  | cons a t ih =>
      rcases List.mem_cons.mp h with rfl | ht
      · exact le_max_left _ _
      · exact le_trans (ih ht) (le_max_right _ _)

theorem mem_le_maxRef {s : Store} {r : Ref} (h : r ∈ s.map Prod.fst) :
    r ≤ maxRef s := le_foldr_max h

theorem ne_freshRef_of_mem {s : Store} {r : Ref} (h : r ∈ s.map Prod.fst) :
    r ≠ freshRef s := by
  intro he
  have := mem_le_maxRef h
  rw [he] at this
  exact absurd this (by simp [freshRef])

theorem storeGet_storeSet_ne (s : Store) (r2 : Ref) (d : SymMap) {r : Ref}
    (h : r ≠ r2) : storeGet (storeSet s r2 d) r = storeGet s r := by
  have h1 : ¬ (r2 = r) := fun he => h he.symm
  unfold storeGet storeSet
  rw [List.find?_map]
  have hpred : ((fun p : Ref × SymMap => decide (p.1 = r))
      ∘ fun p : Ref × SymMap => if p.1 = r2 then (r2, d) else p)
      = fun p : Ref × SymMap => decide (p.1 = r) := by
    funext p
    by_cases hp : p.1 = r2
    · simp [hp, h1]
    · simp [hp]
  rw [hpred]
  cases hfind : s.find? (fun p : Ref × SymMap => decide (p.1 = r)) with
  | none => rfl
  | some e =>
      have he : e.1 = r := by simpa using List.find?_some hfind
      have hne : ¬ e.1 = r2 := by rw [he]; exact h
      simp [hne]

theorem storeGet_allocAt_ne (s : Store) (d : SymMap) {r : Ref}
    (h : r ≠ freshRef s) : storeGet (allocAt s d) r = storeGet s r := by
  have h1 : ¬ (freshRef s = r) := fun he => h he.symm
  unfold storeGet allocAt
  rw [List.find?_append]
  cases hfind : s.find? (fun p : Ref × SymMap => decide (p.1 = r)) with
  | some e => rfl
  | none => simp [List.find?_cons, h1]

theorem map_fst_storeSet (s : Store) (r2 : Ref) (d : SymMap) :
    (storeSet s r2 d).map Prod.fst = s.map Prod.fst := by
  unfold storeSet
  rw [List.map_map]
  refine List.map_congr_left (fun p _ => ?_)
  by_cases h : p.1 = r2 <;> simp [h]

theorem map_fst_allocAt (s : Store) (d : SymMap) :
    (allocAt s d).map Prod.fst = s.map Prod.fst ++ [freshRef s] := by
  simp [allocAt]

theorem storeGet_phaseUpdate_ne (s : Store) (tgt : Ref) (src : Option Ref)
    {r : Ref} (h : r ≠ tgt) :
    storeGet (phaseUpdate s tgt src) r = storeGet s r := by
  cases src with
  | none => rfl
  | some fr => exact storeGet_storeSet_ne s tgt _ h

theorem map_fst_phaseUpdate (s : Store) (tgt : Ref) (src : Option Ref) :
    (phaseUpdate s tgt src).map Prod.fst = s.map Prod.fst := by
  cases src with
  | none => rfl
  | some fr => exact map_fst_storeSet s tgt _

theorem storeGet_round (s : Store) (d : SymMap) (src : Option Ref) {r : Ref}
    (hr : r ∈ s.map Prod.fst) :
    storeGet (phaseUpdate (allocAt s d) (freshRef s) src) r = storeGet s r := by
  have hne : r ≠ freshRef s := ne_freshRef_of_mem hr
  rw [storeGet_phaseUpdate_ne _ _ _ hne, storeGet_allocAt_ne _ _ hne]

theorem map_fst_round (s : Store) (d : SymMap) (src : Option Ref) :
    (phaseUpdate (allocAt s d) (freshRef s) src).map Prod.fst
      = s.map Prod.fst ++ [freshRef s] := by
  rw [map_fst_phaseUpdate, map_fst_allocAt]

theorem find_optim_prior_st_preserves (pexp : ℚ → ℚ) (solver : Solver)
    (grad : Option (List ℚ → List ℚ)) (fam : DistFamily)
    (lower upper mass : ℚ) (s0 : Store) (initRef : Ref)
    (fixedRef : Option Ref) {r : Ref} (hr : r ∈ s0.map Prod.fst) :
    storeGet (find_optim_prior_st pexp solver grad fam lower upper mass
      s0 initRef fixedRef).2.1 r = storeGet s0 r := by
  unfold find_optim_prior_st
  by_cases h1 : ¬ ((1 : ℚ)/100 < mass ∧ mass < 99/100)
  · rw [if_pos h1]
  · rw [if_neg h1]
    by_cases h2 : fam.ndims_params.any (fun n => n ≠ 0) = true
    · rw [if_pos h2]
    · rw [if_neg h2]
      have hround1 : ∀ d, storeGet (phaseUpdate (allocAt s0 d) (freshRef s0)
          fixedRef) r = storeGet s0 r := fun d => storeGet_round s0 d fixedRef hr
      have hmem2 : ∀ d, r ∈ (phaseUpdate (allocAt s0 d) (freshRef s0)
          fixedRef).map Prod.fst := by
        intro d
        rw [map_fst_round]
        exact List.mem_append_left _ hr
      cases hE : fam.logcdf with
      | error e =>
          cases e with
          | attributeError m => exact hround1 _
          | other m => exact hround1 _
      | ok L =>
          dsimp only
          split_ifs with hs ht <;>
            first
              | exact hround1 _
              | exact (storeGet_round _ _ fixedRef (hmem2 _)).trans (hround1 _)

/-- C10: `find_optim_prior` never mutates its caller-supplied arguments:
running the routine over an explicit heap of dict objects, the dicts
behind the caller's `init_guess` and `fixed_params` references hold
exactly the same entries afterwards as at call time, on every path
(success or failure); all merging happens in freshly allocated dicts. -/
theorem claim_C10_no_mutation (pexp : ℚ → ℚ) (solver : Solver)
    (grad : Option (List ℚ → List ℚ)) (fam : DistFamily)
    (lower upper mass : ℚ) (s0 : Store) (initRef : Ref)
    (fixedRef : Option Ref)
    (hi : initRef ∈ s0.map Prod.fst)
    (hf : ∀ fr ∈ fixedRef, fr ∈ s0.map Prod.fst) :
    (storeGet (find_optim_prior_st pexp solver grad fam lower upper mass
        s0 initRef fixedRef).2.1 initRef = storeGet s0 initRef)
    ∧ (∀ fr ∈ fixedRef,
        storeGet (find_optim_prior_st pexp solver grad fam lower upper mass
          s0 initRef fixedRef).2.1 fr = storeGet s0 fr) :=
  ⟨find_optim_prior_st_preserves pexp solver grad fam lower upper mass
      s0 initRef fixedRef hi,
    fun fr hfr => find_optim_prior_st_preserves pexp solver grad fam lower
      upper mass s0 initRef fixedRef (hf fr hfr)⟩

/-- Witness for C10 on a concrete two-object heap. -/
theorem claim_C10_no_mutation_witness :
    ((0 : Ref) ∈ ([(0, constMap [("mu", 5)]),
        (1, constMap [("nu", 7)])] : Store).map Prod.fst)
    ∧ (∀ fr ∈ (some 1 : Option Ref),
        fr ∈ ([(0, constMap [("mu", 5)]),
          (1, constMap [("nu", 7)])] : Store).map Prod.fst)
    ∧ storeGet (find_optim_prior_st (fun q => q) solver0 none famOk 0 1
        (95/100) [(0, constMap [("mu", 5)]), (1, constMap [("nu", 7)])]
        0 (some 1)).2.1 0
      = storeGet [(0, constMap [("mu", 5)]), (1, constMap [("nu", 7)])] 0 :=
  ⟨by decide, by decide,
    (claim_C10_no_mutation (fun q => q) solver0 none famOk 0 1 (95/100)
      [(0, constMap [("mu", 5)]), (1, constMap [("nu", 7)])] 0 (some 1)
      (by decide) (by decide)).1⟩

end PyMC
